import Mathlib

/-!
# Verification of the mcp-fetch content fetcher

A shallow embedding of the Go `fetcher` package (`fetcher/fetcher.go`):
the content-window selector `trimContent`, the single-URL fetch pipeline
`Fetch`, the HTML extraction pipeline `processHTMLContent`, and the
multi-URL orchestrator/allocator `FetchMultiple`.

Go strings are modelled as `List Char` (one element per byte of the
ASCII examples used here), Go `int` as `Int` with 64-bit wrap-around
made explicit at the one arithmetic operation that can overflow, and Go
maps as association lists with insert-or-overwrite semantics.  A Go
slice expression that would panic is modelled by `Option`/`GoResult`.
-/

namespace McpFetch

/-- Two's-complement wrap-around of 64-bit signed integer arithmetic:
the value a Go `int` holds after an operation whose mathematical result
is `x`. -/
def wrap64 (x : Int) : Int :=
  (x + 2 ^ 63) % 2 ^ 64 - 2 ^ 63

/-- Go slice expression `c[s:e]` on a string/slice of length `len c`:
panics (`none`) unless `0 ≤ s ≤ e ≤ len c`, otherwise yields the
half-open window. -/
def goSlice (c : List Char) (s e : Int) : Option (List Char) :=
  if 0 ≤ s ∧ s ≤ e ∧ e ≤ (c.length : Int) then
    some ((c.take e.toNat).drop s.toNat)
  else
    none

/-- Embeds `trimContent` (fetcher.go lines 182-198).  The addition
`startIndex + maxLength` is the only arithmetic that can leave the
int64 range, so it is wrapped; the final Go slice `content[startIndex:endIndex]`
is modelled by `goSlice` (`none` = runtime panic). -/
def trimContent (content : List Char) (startIndex maxLength : Int) : Option (List Char) :=
  let contentLength : Int := content.length
  let s := if startIndex < 0 then 0 else startIndex
  if s ≥ contentLength then
    some []
  else
    let endIndex :=
      if maxLength > 0 then
        let potentialEndIndex := wrap64 (s + maxLength)
        if potentialEndIndex < contentLength then potentialEndIndex else contentLength
      else contentLength
    goSlice content s endIndex

/-- `trimContent` specialised to `startIndex = 0`, as called by the
allocator in `FetchMultiple`; total because at `startIndex = 0` no
bound can be violated (`trimContent_zero_eq` proves the agreement for
every int64 `maxLength`). -/
def trim0 (content : List Char) (maxLength : Int) : List Char :=
  if 0 < maxLength then content.take maxLength.toNat else content

/-- Modelled from the spec: the Content Window Selector contract of
§4.1 (`select(content, startIndex, maxLength)`), written from the
spec's words with exact integer arithmetic, for comparison against the
source's `trimContent`. -/
def specSelect (content : List Char) (startIndex maxLength : Int) : List Char :=
  let s := if startIndex < 0 then 0 else startIndex
  if s ≥ (content.length : Int) then []
  else if maxLength ≤ 0 then content.drop s.toNat
  else (content.take (min (content.length : Int) (s + maxLength)).toNat).drop s.toNat

theorem wrap64_eq_self {x : Int} (h₁ : -(2 ^ 63) ≤ x) (h₂ : x < 2 ^ 63) : wrap64 x = x := by
  unfold wrap64
  omega

theorem goSlice_of_le {c : List Char} {s e : Int} (h0 : 0 ≤ s) (hse : s ≤ e)
    (he : e ≤ (c.length : Int)) : goSlice c s e = some ((c.take e.toNat).drop s.toNat) := by
  simp [goSlice, h0, hse, he]

/-- At `startIndex = 0`, `trimContent` never panics and agrees with the
total specialisation `trim0`, for every int64 `maxLength`. -/
theorem trimContent_zero_eq (c : List Char) (m : Int) (hm : m < 2 ^ 63) :
    trimContent c 0 m = some (trim0 c m) := by
  by_cases hnil : c = []
  · subst hnil
    simp [trimContent, trim0, goSlice]
  · have hlen : 0 < (c.length : Int) := by
      have := List.length_pos.mpr hnil
      omega
    by_cases hm0 : 0 < m
    · have hw : wrap64 (0 + m) = m := by
        rw [zero_add]
        exact wrap64_eq_self (by omega) (by omega)
      by_cases hlt : m < (c.length : Int)
      · simp only [trimContent, trim0, goSlice]
        rw [if_neg (by omega : ¬(0:Int) < 0), if_neg (by omega : ¬(0:Int) ≥ (c.length : Int)),
          if_pos (by omega : m > 0), hw, if_pos hlt,
          if_pos (by refine ⟨le_refl 0, by omega, by omega⟩)]
        simp [hm0]
      · simp only [trimContent, trim0, goSlice]
        rw [if_neg (by omega : ¬(0:Int) < 0), if_neg (by omega : ¬(0:Int) ≥ (c.length : Int)),
          if_pos (by omega : m > 0), hw, if_neg hlt,
          if_pos (by refine ⟨le_refl 0, by omega, le_refl _⟩)]
        simp only [Int.toNat_zero, List.drop_zero, Int.toNat_natCast, List.take_length,
          if_pos hm0, Option.some.injEq]
        rw [List.take_of_length_le (by omega)]
    · simp only [trimContent, trim0, goSlice]
      rw [if_neg (by omega : ¬(0:Int) < 0), if_neg (by omega : ¬(0:Int) ≥ (c.length : Int)),
        if_neg (by omega : ¬m > 0),
        if_pos (by refine ⟨le_refl 0, by omega, le_refl _⟩)]
      simp [hm0]

/-- `trim0` agrees with the spec's selector at `startIndex = 0`. -/
theorem trim0_eq_specSelect (c : List Char) (m : Int) : trim0 c m = specSelect c 0 m := by
  by_cases hnil : c = []
  · subst hnil
    simp [trim0, specSelect]
  · have hlen : 0 < (c.length : Int) := by
      have := List.length_pos.mpr hnil
      omega
    by_cases hm0 : 0 < m
    · simp only [trim0, specSelect]
      rw [if_pos hm0, if_neg (by omega : ¬(0:Int) < 0),
        if_neg (by omega : ¬(0:Int) ≥ (c.length : Int)), if_neg (by omega : ¬m ≤ 0)]
      by_cases hlt : m < (c.length : Int)
      · rw [show min (c.length : Int) (0 + m) = m by omega]
        simp
      · rw [show min (c.length : Int) (0 + m) = (c.length : Int) by omega]
        simp only [Int.toNat_zero, List.drop_zero, Int.toNat_natCast, List.take_length]
        rw [List.take_of_length_le (by omega)]
    · simp only [trim0, specSelect]
      rw [if_neg hm0, if_neg (by omega : ¬(0:Int) < 0),
        if_neg (by omega : ¬(0:Int) ≥ (c.length : Int)), if_pos (by omega : m ≤ 0)]
      simp

/-! ## Single-URL fetch executor (`fetch`, fetcher.go lines 74-134) -/

/-- The network's behaviour for one GET, the only non-deterministic
input of `fetch`: either one of its three fallible steps fails
(`http.NewRequest`, `client.Do` — which also covers the 10-redirect cap
— or `io.ReadAll`), or the request succeeds with a final URL, status,
body, content type and the redirect chain recorded by `CheckRedirect`
(empty iff no redirect occurred). -/
inductive NetOutcome where
  | reqError (msg : String)
  | doError (msg : String)
  | readError (msg : String)
  | ok (finalURL : String) (status : Int) (body : List Char) (contentType : String)
      (chain : List String)
deriving DecidableEq

/-- Whether the network outcome is a success (any HTTP status). -/
def NetOutcome.isOk : NetOutcome → Bool
  | .ok _ _ _ _ _ => true
  | _ => false

/-- Mirrors the `fetchResponse` struct of fetcher.go (lines 65-72):
zero values for the fields an error result leaves unset. -/
structure FetchOut where
  url : String := ""
  status : Int := 0
  body : List Char := []
  contentType : String := ""
  originalURL : String := ""
  err : Option String := none
deriving DecidableEq

/-- Embeds `httpFetcher.fetch` (fetcher.go lines 74-134) as a function
of the requested URL and the network outcome.  Error messages carry the
`ierrors.Wrap` prefixes; on success `url` is the final request URL and
`originalURL` is set to the requested URL exactly when the redirect
chain is non-empty and its first entry differs from the final URL. -/
def fetchModel (urlStr : String) (o : NetOutcome) : FetchOut :=
  match o with
  | .reqError m => { err := some ("failed to create request: " ++ m) }
  | .doError m => { err := some ("failed to execute request: " ++ m) }
  | .readError m => { err := some ("failed to read response body: " ++ m) }
  | .ok finalURL status body contentType chain =>
      { url := finalURL
        status := status
        body := body
        contentType := contentType
        originalURL :=
          if chain ≠ [] ∧ chain.head? ≠ some finalURL then urlStr else ""
        err := none }

/-! ## Content extraction pipeline (`processHTMLContent`, lines 200-230) -/

/-- The result the external Extractor produces for one HTML body:
`readability.Extract` either fails (`none`) or yields an article whose
`Root` node `readability.ToMarkdown` — a total function returning a
plain string — converts to `markdown`. -/
structure ExtractedArticle where
  title : List Char
  byline : List Char
  markdown : List Char

/-- Embeds `processHTMLContent` (fetcher.go lines 200-230),
parameterised by the Extractor collaborator: if readability extraction
fails the raw body is returned unchanged; otherwise the Markdown of the
article root, with `"# " + title + "\n\n"` prepended when the title is
non-empty and `"\n\n---\n\nAuthor: " + byline` appended when the byline
is non-empty.  (The Go function's `urlStr` parameter feeds only log
lines and is omitted.) -/
def processHTMLContent (ext : List Char → Option ExtractedArticle) (body : List Char) :
    List Char :=
  match ext body with
  | none => body
  | some article =>
      let withTitle :=
        if article.title ≠ [] then "# ".toList ++ article.title ++ "\n\n".toList else []
      let withMarkdown := withTitle ++ article.markdown
      if article.byline ≠ [] then
        withMarkdown ++ "\n\n---\n\nAuthor: ".toList ++ article.byline
      else withMarkdown

/-- Models Go's `strings.Contains` on our byte-list strings. -/
def containsSub (s pat : List Char) : Bool :=
  s.tails.any fun t => pat.isPrefixOf t

/-- The content-processing step shared by `Fetch` (lines 152-160) and
`FetchMultiple` (lines 294-303): raw mode passes the body through, an
HTML content type goes through `processHTMLContent`, everything else
passes through. -/
def processContent (ext : List Char → Option ExtractedArticle) (raw : Bool)
    (contentType : String) (body : List Char) : List Char :=
  if raw then body
  else if containsSub contentType.toList "text/html".toList then processHTMLContent ext body
  else body

/-- Result of a Go function returning `(T, error)`, with the
possibility of a runtime panic made explicit. -/
inductive GoResult (α : Type) where
  | ok (a : α)
  | err (msg : String)
  | panic
deriving DecidableEq

/-- Mirrors `types.FetchResponse`. -/
structure FetchResp where
  URL : String
  ContentType : String
  Content : List Char
  StatusCode : Int
  OriginalURL : String := ""
deriving DecidableEq

/-- Embeds `httpFetcher.Fetch` (fetcher.go lines 137-179): fetch, then
content processing, then `trimContent`; the response's `URL` field is
the *requested* `urlStr` (line 172) while the final URL stays inside
the internal fetch result. -/
def FetchM (urlStr : String) (maxLength startIndex : Int) (raw : Bool)
    (ext : List Char → Option ExtractedArticle) (net : NetOutcome) : GoResult FetchResp :=
  let resp := fetchModel urlStr net
  match resp.err with
  | some m => .err m
  | none =>
      let processedContent := processContent ext raw resp.contentType resp.body
      match trimContent processedContent startIndex maxLength with
      | none => .panic
      | some trimmedContent =>
          .ok { URL := urlStr
                ContentType := resp.contentType
                Content := trimmedContent
                StatusCode := resp.status
                OriginalURL := resp.originalURL }

/-! ## Multi-URL orchestrator and allocator (`FetchMultiple`, lines 232-426) -/

/-- Go map assignment `m[k] = v`: overwrite the entry if the key is
present, append it otherwise.  Keys stay unique, so `List.length` is
the map's size. -/
def mapInsert {V : Type} (m : List (String × V)) (k : String) (v : V) : List (String × V) :=
  if m.any fun p => p.1 == k then
    m.map fun p => if p.1 == k then (k, v) else p
  else m ++ [(k, v)]

/-- Mirrors the `processedResult` struct (lines 269-277) before
allocation.  (`OriginalIndex` is stored by the Go code but never read;
`FinalTrimmedContent`/`WasTruncated` live in `AllocEntry`.) -/
structure ProcessedResult where
  URL : String
  FullContent : List Char
  ContentType : String
  StatusCode : Int
deriving DecidableEq

/-- One iteration of the result-processing loop (lines 283-312): a nil
slot reports an internal error under the input URL, a failed fetch
reports its message under `res.url` (the zero value `""` for every
fetch error), and a success is appended to the processed list with its
content run through `processContent`. -/
def collectStep (ext : List Char → Option ExtractedArticle) (raw : Bool)
    (acc : List ProcessedResult × List (String × String)) (p : String × Option FetchOut) :
    List ProcessedResult × List (String × String) :=
  match p.2 with
  | none => (acc.1, mapInsert acc.2 p.1 "internal error: nil initial result")
  | some res =>
      match res.err with
      | some e => (acc.1, mapInsert acc.2 res.url e)
      | none =>
          (acc.1 ++ [{ URL := res.url
                       FullContent := processContent ext raw res.contentType res.body
                       ContentType := res.contentType
                       StatusCode := res.status }], acc.2)

/-- The whole result-processing loop: `results` is the slice the
parallel fetch goroutines filled, one slot per input URL. -/
def collectResults (ext : List Char → Option ExtractedArticle) (raw : Bool)
    (urls : List String) (results : List (Option FetchOut)) :
    List ProcessedResult × List (String × String) :=
  (urls.zip results).foldl (collectStep ext raw) ([], [])

/-- `initialAllocation` (lines 315-321): `maxLength / numSuccessful`
with Go's truncated division, `0` when every fetch failed. -/
def initialAllocationOf (maxLength : Int) (n : Nat) : Int :=
  if 0 < n then Int.tdiv maxLength n else 0

/-- A `processedResult` after trimming: `FinalTrimmedContent` and
`WasTruncated` filled in. -/
structure AllocEntry where
  URL : String
  FullContent : List Char
  ContentType : String
  StatusCode : Int
  FinalTrimmedContent : List Char
  WasTruncated : Bool
deriving DecidableEq

/-- One entry of the initial trimming pass (lines 332-353): the result
trimmed to the initial allocation, flagged as a beneficiary when its
full content is longer than that allocation. -/
def pass1Entry (init : Int) (r : ProcessedResult) : AllocEntry :=
  { URL := r.URL
    FullContent := r.FullContent
    ContentType := r.ContentType
    StatusCode := r.StatusCode
    FinalTrimmedContent := trim0 r.FullContent init
    WasTruncated := decide (init < (r.FullContent.length : Int)) }

/-- The initial trimming pass (lines 331-353). -/
def pass1 (maxLength : Int) (prs : List ProcessedResult) : List AllocEntry :=
  prs.map (pass1Entry (initialAllocationOf maxLength prs.length))

/-- The allocation logic of `FetchMultiple` (lines 314-396): initial
trimming, then — when budget remains and beneficiaries exist — one
redistribution pass that re-trims each beneficiary's stored full content
to `initialAllocation + perURLReallocation`. -/
def allocate (maxLength : Int) (prs : List ProcessedResult) : List AllocEntry :=
  let init := initialAllocationOf maxLength prs.length
  let p1 := pass1 maxLength prs
  let totalUsed : Int := (p1.map fun r => (r.FinalTrimmedContent.length : Int)).sum
  let remainingChars := maxLength - totalUsed
  let numBeneficiaries := (p1.filter fun r => r.WasTruncated).length
  if 0 < remainingChars ∧ 0 < numBeneficiaries then
    let perURLReallocation := Int.tdiv remainingChars numBeneficiaries
    let targetLength := init + perURLReallocation
    p1.map fun r =>
      if r.WasTruncated then { r with FinalTrimmedContent := trim0 r.FullContent targetLength }
      else r
  else p1

/-- Mirrors `types.MultipleFetchResponse`. -/
structure MultiResp where
  Responses : List (String × FetchResp)
  Errors : List (String × String)
deriving DecidableEq

/-- Embeds `httpFetcher.FetchMultiple` (lines 232-426): default the
budget, process the per-URL fetch outcomes, allocate, and build the
responses map keyed by each processed result's URL (the *final* URL the
fetch recorded). -/
def fetchMultipleModel (defaultMaxLength : Int)
    (ext : List Char → Option ExtractedArticle) (urls : List String)
    (results : List (Option FetchOut)) (maxLength : Int) (raw : Bool) : MultiResp :=
  let B := if maxLength ≤ 0 then defaultMaxLength else maxLength
  let collected := collectResults ext raw urls results
  let alloc := allocate B collected.1
  let responses := alloc.foldl (fun m r =>
    mapInsert m r.URL
      { URL := r.URL
        ContentType := r.ContentType
        Content := r.FinalTrimmedContent
        StatusCode := r.StatusCode }) []
  { Responses := responses, Errors := collected.2 }

/-- Sum of the content lengths over the entries of a responses map. -/
def totalContentLength (responses : List (String × FetchResp)) : Int :=
  (responses.map fun p => (p.2.Content.length : Int)).sum

/-- The goroutine dispatch of `FetchMultiple` (lines 251-264): the loop
executes `wg.Add(1); go …` once per URL and the only join (`wg.Wait`)
comes after the loop, so this is the number of fetch workers in flight
at the join point — nothing in the code gates how many of them run at
once, and `maxWorkers` is never consulted. -/
def spawnedFetchWorkers (urls : List String) : Nat :=
  urls.foldl (fun acc _ => acc + 1) 0

/-- Modelled from the spec: the reference allocation algorithm of §4.5
(steps 2-8), written from the spec's words — floor division, the
spec's selector `specSelect`, beneficiary = full content longer than
`initialAllocation`, one redistribution pass over the stored full
contents — for comparison against the allocator embedded from the
source. -/
def refAllocate (totalBudget : Int) (records : List (String × List Char)) :
    List (String × List Char) :=
  let n : Int := records.length
  let initialAllocation := Int.fdiv totalBudget n
  let totalUsed : Int :=
    (records.map fun r => ((specSelect r.2 0 initialAllocation).length : Int)).sum
  let beneficiaries := records.filter fun r => initialAllocation < (r.2.length : Int)
  let remaining := totalBudget - totalUsed
  if 0 < remaining ∧ 0 < beneficiaries.length then
    let perBeneficiaryBonus := Int.fdiv remaining beneficiaries.length
    records.map fun r =>
      if initialAllocation < (r.2.length : Int) then
        (r.1, specSelect r.2 0 (initialAllocation + perBeneficiaryBonus))
      else (r.1, specSelect r.2 0 initialAllocation)
  else records.map fun r => (r.1, specSelect r.2 0 initialAllocation)

/-! ## Closed form of the allocation -/

theorem tdiv_eq_fdiv_of_nonneg {a b : Int} (ha : 0 ≤ a) (hb : 0 ≤ b) :
    a.tdiv b = a.fdiv b := by
  rw [Int.tdiv_eq_ediv ha hb, Int.fdiv_eq_ediv a hb]

theorem pass1Entry_URL (init : Int) (r : ProcessedResult) :
    (pass1Entry init r).URL = r.URL := rfl

theorem pass1Entry_FullContent (init : Int) (r : ProcessedResult) :
    (pass1Entry init r).FullContent = r.FullContent := rfl

theorem pass1Entry_ContentType (init : Int) (r : ProcessedResult) :
    (pass1Entry init r).ContentType = r.ContentType := rfl

theorem pass1Entry_StatusCode (init : Int) (r : ProcessedResult) :
    (pass1Entry init r).StatusCode = r.StatusCode := rfl

theorem pass1Entry_FinalTrimmedContent (init : Int) (r : ProcessedResult) :
    (pass1Entry init r).FinalTrimmedContent = trim0 r.FullContent init := rfl

theorem pass1Entry_WasTruncated (init : Int) (r : ProcessedResult) :
    (pass1Entry init r).WasTruncated = decide (init < (r.FullContent.length : Int)) := rfl

/-- The bonus the single redistribution pass grants each beneficiary:
`remainingChars / numBeneficiaries` when budget remains and
beneficiaries exist, `0` otherwise. -/
def reallocBonus (maxLength : Int) (prs : List ProcessedResult) : Int :=
  let init := initialAllocationOf maxLength prs.length
  let totalUsed : Int := (prs.map fun r => ((trim0 r.FullContent init).length : Int)).sum
  let remainingChars := maxLength - totalUsed
  let numBeneficiaries :=
    (prs.filter fun r => decide (init < (r.FullContent.length : Int))).length
  if 0 < remainingChars ∧ 0 < numBeneficiaries then
    Int.tdiv remainingChars numBeneficiaries
  else 0

/-- Closed form of one final allocation entry: the stored full content
re-trimmed once to `initialAllocation` plus — for beneficiaries only —
the one-shot redistribution bonus.  There is no second round: the bonus
is computed once from the first pass and any slack stays unused. -/
def allocClosedForm (maxLength : Int) (prs : List ProcessedResult) (r : ProcessedResult) :
    AllocEntry :=
  let init := initialAllocationOf maxLength prs.length
  { URL := r.URL
    FullContent := r.FullContent
    ContentType := r.ContentType
    StatusCode := r.StatusCode
    FinalTrimmedContent :=
      trim0 r.FullContent
        (init + if init < (r.FullContent.length : Int) then reallocBonus maxLength prs else 0)
    WasTruncated := decide (init < (r.FullContent.length : Int)) }

/-- The allocation of `FetchMultiple` equals its closed form: each
URL's final content is one re-trim of the stored full content, with a
bonus computed exactly once — a single redistribution pass. -/
theorem allocate_closed_form (maxLength : Int) (prs : List ProcessedResult) :
    allocate maxLength prs = prs.map (allocClosedForm maxLength prs) := by
  unfold allocate pass1
  simp only [List.map_map, List.filter_map, List.length_map, Function.comp_def,
    pass1Entry_FinalTrimmedContent, pass1Entry_WasTruncated]
  split_ifs with hG
  · apply List.map_congr_left
    intro r _
    simp only [allocClosedForm, reallocBonus, if_pos hG]
    by_cases hben : initialAllocationOf maxLength prs.length < (r.FullContent.length : Int)
    · simp [pass1Entry, hben]
    · simp [pass1Entry, hben]
  · apply List.map_congr_left
    intro r _
    simp only [allocClosedForm, reallocBonus, if_neg hG]
    by_cases hben : initialAllocationOf maxLength prs.length < (r.FullContent.length : Int)
    · simp [pass1Entry, hben]
    · simp [pass1Entry, hben]

theorem allocClosedForm_URL (B : Int) (prs : List ProcessedResult) (r : ProcessedResult) :
    (allocClosedForm B prs r).URL = r.URL := rfl

theorem allocClosedForm_Final (B : Int) (prs : List ProcessedResult) (r : ProcessedResult) :
    (allocClosedForm B prs r).FinalTrimmedContent =
      trim0 r.FullContent
        (initialAllocationOf B prs.length +
          if initialAllocationOf B prs.length < (r.FullContent.length : Int) then
            reallocBonus B prs
          else 0) := rfl

/-- The allocation embedded from `FetchMultiple` computes exactly the
reference algorithm of spec §4.5 on every non-empty batch with a
positive budget. -/
theorem allocate_matches_refAllocate (B : Int) (prs : List ProcessedResult)
    (hB : 0 < B) (hn : prs ≠ []) :
    (allocate B prs).map (fun r => (r.URL, r.FinalTrimmedContent)) =
      refAllocate B (prs.map fun r => (r.URL, r.FullContent)) := by
  have hlen : 0 < prs.length := List.length_pos.mpr hn
  have hinit : initialAllocationOf B prs.length = Int.fdiv B (prs.length : Int) := by
    unfold initialAllocationOf
    rw [if_pos hlen, tdiv_eq_fdiv_of_nonneg (le_of_lt hB) (Int.natCast_nonneg _)]
  rw [allocate_closed_form, List.map_map]
  unfold refAllocate
  simp only [List.map_map, List.filter_map, List.length_map, Function.comp_def,
    Prod.fst, Prod.snd, ← trim0_eq_specSelect, allocClosedForm_URL, allocClosedForm_Final,
    reallocBonus, hinit]
  set init := Int.fdiv B (prs.length : Int) with hinitdef
  set used := (prs.map fun r => ((trim0 r.FullContent init).length : Int)).sum with husdef
  set nb := (prs.filter fun r => decide (init < (r.FullContent.length : Int))).length
    with hnbdef
  by_cases hguard : 0 < B - used ∧ 0 < nb
  · have hdiv : (B - used).tdiv (nb : Int) = (B - used).fdiv (nb : Int) :=
      tdiv_eq_fdiv_of_nonneg (le_of_lt hguard.1) (Int.natCast_nonneg _)
    simp only [if_pos hguard, hdiv]
    apply List.map_congr_left
    intro r _
    by_cases hben : init < (r.FullContent.length : Int)
    · simp [hben]
    · simp [hben]
  · simp only [if_neg hguard]
    apply List.map_congr_left
    intro r _
    by_cases hben : init < (r.FullContent.length : Int)
    · simp [hben]
    · simp [hben]

/-! ## The content-window contract away from int64 overflow -/

/-- Wherever the clamped start plus `maxLength` stays inside the int64
range, `trimContent` never panics and returns exactly the spec's
window. -/
theorem trimContent_eq_specSelect (c : List Char) (s m : Int)
    (hno : 0 < m → (if s < 0 then 0 else s) + m < 2 ^ 63) :
    trimContent c s m = some (specSelect c s m) := by
  by_cases hs : s < 0
  · have h1 : trimContent c s m = trimContent c 0 m := by
      unfold trimContent
      rw [if_pos hs, if_neg (lt_irrefl 0)]
    have h2 : specSelect c s m = specSelect c 0 m := by
      unfold specSelect
      rw [if_pos hs, if_neg (lt_irrefl 0)]
    have hm : m < 2 ^ 63 := by
      by_cases hm0 : 0 < m
      · have := hno hm0
        rw [if_pos hs] at this
        omega
      · omega
    rw [h1, h2, ← trim0_eq_specSelect]
    exact trimContent_zero_eq c m hm
  · have hclamp : (if s < 0 then 0 else s) = s := if_neg hs
    rw [hclamp] at hno
    push_neg at hs
    by_cases hge : s ≥ (c.length : Int)
    · simp only [trimContent, specSelect, hclamp]
      rw [if_pos hge, if_pos hge]
    · push_neg at hge
      by_cases hm0 : 0 < m
      · have hwr : wrap64 (s + m) = s + m :=
          wrap64_eq_self (by omega) (by have := hno hm0; omega)
      -- the slice bounds are in range, so the Go slice succeeds
        by_cases hlt : s + m < (c.length : Int)
        · simp only [trimContent, specSelect, goSlice, hclamp]
          rw [if_neg (by omega : ¬s ≥ (c.length : Int)),
            if_neg (by omega : ¬s ≥ (c.length : Int)), if_pos (by omega : m > 0), hwr,
            if_pos hlt, if_pos ⟨by omega, by omega, by omega⟩,
            if_neg (by omega : ¬m ≤ 0), show min (c.length : Int) (s + m) = s + m by omega]
        · simp only [trimContent, specSelect, goSlice, hclamp]
          rw [if_neg (by omega : ¬s ≥ (c.length : Int)),
            if_neg (by omega : ¬s ≥ (c.length : Int)), if_pos (by omega : m > 0), hwr,
            if_neg hlt, if_pos ⟨by omega, by omega, le_refl _⟩,
            if_neg (by omega : ¬m ≤ 0),
            show min (c.length : Int) (s + m) = (c.length : Int) by omega]
      · simp only [trimContent, specSelect, goSlice, hclamp]
        rw [if_neg (by omega : ¬s ≥ (c.length : Int)),
          if_neg (by omega : ¬s ≥ (c.length : Int)), if_neg hm0,
          if_pos ⟨by omega, by omega, le_refl _⟩, if_pos (by omega : m ≤ 0)]
        simp

/-- Any combination of take/drop windows decomposes the original list:
the window is a contiguous substring. -/
theorem take_drop_decomp (c : List Char) (S E : Nat) :
    c = (c.take E).take S ++ (c.take E).drop S ++ c.drop E := by
  rw [List.take_append_drop S (c.take E), List.take_append_drop E c]

/-- The spec window is always a contiguous substring of the content. -/
theorem specSelect_infix (c : List Char) (s m : Int) :
    ∃ pre post, c = pre ++ specSelect c s m ++ post := by
  simp only [specSelect]
  generalize (if s < 0 then 0 else s) = S
  split_ifs with h1 h2
  · exact ⟨[], c, by simp⟩
  · refine ⟨c.take S.toNat, [], ?_⟩
    rw [List.append_nil, List.take_append_drop]
  · exact ⟨(c.take (min (c.length : Int) (S + m)).toNat).take S.toNat,
      c.drop (min (c.length : Int) (S + m)).toNat, take_drop_decomp c _ _⟩

/-- When `maxLength` is positive, the spec window never exceeds it. -/
theorem specSelect_length_le (c : List Char) (s m : Int) (hm : 0 < m) :
    ((specSelect c s m).length : Int) ≤ m := by
  simp only [specSelect]
  generalize (if s < 0 then 0 else s) = S
  split_ifs with h1 h2
  · simpa using le_of_lt hm
  · omega
  · simp only [List.length_drop, List.length_take]
    push_neg at h1
    omega

/-- The spec's selector with both indices zero returns the content
unchanged (zero `maxLength` means unbounded). -/
theorem specSelect_zero_zero (c : List Char) : specSelect c 0 0 = c := by
  rw [← trim0_eq_specSelect]
  simp [trim0]

/-- An Extractor on which readability extraction always fails. -/
def extFail : List Char → Option ExtractedArticle := fun _ => none

/-- The slot a fetch goroutine fills for a plain-text 200 response with
no redirect. -/
def okPlain (u : String) (b : List Char) : Option FetchOut :=
  some (fetchModel u (.ok u 200 b "text/plain" []))

/-- When every slot of the result slice holds a successful fetch, the
result-processing loop adds nothing to the errors map. -/
theorem foldl_collectStep_no_errors (ext : List Char → Option ExtractedArticle) (raw : Bool)
    (ps : List (String × Option FetchOut))
    (acc : List ProcessedResult × List (String × String))
    (h : ∀ p ∈ ps, ∃ fo : FetchOut, p.2 = some fo ∧ fo.err = none) :
    (ps.foldl (collectStep ext raw) acc).2 = acc.2 := by
  induction ps generalizing acc with
  | nil => rfl
  | cons p ps ih =>
      obtain ⟨fo, hp, herr⟩ := h p (by simp)
      rw [List.foldl_cons, ih _ fun q hq => h q (by simp [hq])]
      simp [collectStep, hp, herr]

/-- The errors map of `FetchMultiple` stays empty when every fetch
succeeded, whatever its HTTP status. -/
theorem fetchMultiple_no_errors (dflt : Int) (ext : List Char → Option ExtractedArticle)
    (urls : List String) (results : List (Option FetchOut)) (mx : Int) (raw : Bool)
    (h : ∀ r ∈ results, ∃ fo : FetchOut, r = some fo ∧ fo.err = none) :
    (fetchMultipleModel dflt ext urls results mx raw).Errors = [] := by
  unfold fetchMultipleModel collectResults
  exact foldl_collectStep_no_errors ext raw _ ([], []) fun p hp =>
    h p.2 (List.of_mem_zip hp).2

/-- Modelled from the spec: the §4.3 Extractor collaborator interface,
`readabilityExtract(html, baseURL) -> {title, byline/excerpt, contentHTML}`. -/
structure SpecArticle where
  title : List Char
  byline : List Char
  contentHTML : List Char

/-- Modelled from the spec: the §4.3 extraction fallback chain —
primary: readability-extract then markdown-convert the extracted
fragment, with title/byline decoration; fallback (readability failed OR
that conversion failed): convert the original raw HTML body directly
to Markdown; final fallback (both conversions fail): the raw body. -/
def specExtractChain (readabilityExtract : List Char → Option SpecArticle)
    (htmlToMarkdown : List Char → Option (List Char)) (body : List Char) : List Char :=
  match readabilityExtract body with
  | some article =>
      match htmlToMarkdown article.contentHTML with
      | some markdown =>
          (if article.title ≠ [] then "# ".toList ++ article.title ++ "\n\n".toList else [])
            ++ markdown
            ++ (if article.byline ≠ [] then "\n\n---\n\n".toList ++ article.byline else [])
      | none => (htmlToMarkdown body).getD body
  | none => (htmlToMarkdown body).getD body

/-! ## Claim theorems -/

/-- C1: the claimed budget invariant — the sum of the returned content
lengths never exceeds the effective budget — fails on the code: with
two successful 3-character fetches and `maxLength = 1` (so effective
budget 1), `initialAllocation = 1 / 2 = 0`, and `trimContent` treats a
non-positive `maxLength` as "no bound", so the batch returns all 6
characters, exceeding the budget. -/
theorem c1_budget_invariant_violated :
    totalContentLength
        (fetchMultipleModel 5000 extFail ["u1", "u2"]
          [okPlain "u1" "aaa".toList, okPlain "u2" "bbb".toList] 1 true).Responses = 6 ∧
      ¬totalContentLength
          (fetchMultipleModel 5000 extFail ["u1", "u2"]
            [okPlain "u1" "aaa".toList, okPlain "u2" "bbb".toList] 1 true).Responses ≤ 1 := by
  decide

/-- C2: on every non-empty successfully-fetched batch with positive
effective budget, the allocation of `FetchMultiple` equals the
reference algorithm of the spec (initial floor-division allocation,
beneficiaries re-trimmed once from the stored full content by
`select(c, 0, initialAllocation + remaining div numBeneficiaries)`),
and on three raw contents of lengths 10/30/5 with `maxLength = 30` the
final lengths are 10/15/5 summing to 30. -/
theorem c2_allocation_matches_reference :
    (∀ (B : Int) (prs : List ProcessedResult), 0 < B → prs ≠ [] →
        (allocate B prs).map (fun r => (r.URL, r.FinalTrimmedContent)) =
          refAllocate B (prs.map fun r => (r.URL, r.FullContent))) ∧
      ((fetchMultipleModel 5000 extFail ["u1", "u2", "u3"]
          [okPlain "u1" "0123456789".toList,
           okPlain "u2" "abcdefghijklmnopqrstuvwxyz1234".toList,
           okPlain "u3" "abcde".toList] 30 true).Responses.map fun p =>
            (p.1, p.2.Content.length)) = [("u1", 10), ("u2", 15), ("u3", 5)] ∧
      totalContentLength
          (fetchMultipleModel 5000 extFail ["u1", "u2", "u3"]
            [okPlain "u1" "0123456789".toList,
             okPlain "u2" "abcdefghijklmnopqrstuvwxyz1234".toList,
             okPlain "u3" "abcde".toList] 30 true).Responses = 30 :=
  ⟨fun B prs hB hn => allocate_matches_refAllocate B prs hB hn, by decide, by decide⟩

/-- C2 witness: the allocator/reference agreement evaluated on a
concrete one-element batch. -/
theorem c2_allocation_matches_reference_witness :
    (allocate 30
          [⟨"u", "abcdefghijklmnopqrstuvwxyz1234".toList, "text/plain", 200⟩]).map
        (fun r => (r.URL, r.FinalTrimmedContent)) =
      refAllocate 30
        ([(⟨"u", "abcdefghijklmnopqrstuvwxyz1234".toList, "text/plain", 200⟩ :
            ProcessedResult)].map fun r => (r.URL, r.FullContent)) :=
  c2_allocation_matches_reference.1 30
    [⟨"u", "abcdefghijklmnopqrstuvwxyz1234".toList, "text/plain", 200⟩]
    (by decide) (by decide)

/-- C3: the claimed partition invariant
(`len(responses) + len(errors) == len(urls)`, keys exactly the input
URLs) fails on the code: every failed fetch is recorded under
`res.url`, which is the zero value `""` for error results, so two
transport failures collapse into a single errors entry keyed by the
empty string — here 0 responses + 1 error ≠ 2 URLs, and the one key is
not an input URL. -/
theorem c3_partition_invariant_violated :
    (fetchMultipleModel 5000 extFail ["http://a", "http://b"]
        [some (fetchModel "http://a" (.doError "connection refused")),
         some (fetchModel "http://b" (.doError "connection refused"))] 100 true) =
      { Responses := [],
        Errors := [("", "failed to execute request: connection refused")] } ∧
      (fetchMultipleModel 5000 extFail ["http://a", "http://b"]
          [some (fetchModel "http://a" (.doError "connection refused")),
           some (fetchModel "http://b" (.doError "connection refused"))]
          100 true).Responses.length +
        (fetchMultipleModel 5000 extFail ["http://a", "http://b"]
            [some (fetchModel "http://a" (.doError "connection refused")),
             some (fetchModel "http://b" (.doError "connection refused"))]
            100 true).Errors.length = 1 ∧
      (["http://a", "http://b"] : List String).length = 2 ∧
      "" ∉ ["http://a", "http://b"] := by
  decide

/-- C4 counterexample: the claim says `trimContent` always realises the
spec window and never errors, but at `startIndex = 1`,
`maxLength = 2^63 - 1` on a 2-byte content the Go addition
`startIndex + maxLength` wraps to a negative `endIndex` and the slice
panics, while the spec window is `"b"`. -/
theorem c4_counterexample :
    trimContent "ab".toList 1 (2 ^ 63 - 1) = none ∧
      specSelect "ab".toList 1 (2 ^ 63 - 1) = ['b'] := by
  decide

/-- C4 (amended): whenever the clamped start plus `maxLength` stays
below `2^63` (no int64 overflow), `trimContent` is total and satisfies
the whole spec contract — negative `startIndex` clamped to 0, empty
window past the end, non-positive `maxLength` unbounded (so
`select(c,0,0) = c`), otherwise
`content[startIndex : min(len, startIndex+maxLength)]`. -/
theorem c4_window_contract (c : List Char) (s m : Int)
    (hno : 0 < m → (if s < 0 then 0 else s) + m < 2 ^ 63) :
    trimContent c s m = some (specSelect c s m) ∧ trimContent c 0 0 = some c := by
  refine ⟨trimContent_eq_specSelect c s m hno, ?_⟩
  rw [trimContent_eq_specSelect c 0 0 (fun h => absurd h (lt_irrefl 0)),
    specSelect_zero_zero]

/-- C4 witness: the window contract evaluated at a negative start
index. -/
theorem c4_window_contract_witness :
    trimContent "hello".toList (-2) 3 = some (specSelect "hello".toList (-2) 3) ∧
      trimContent "hello".toList 0 0 = some "hello".toList :=
  c4_window_contract "hello".toList (-2) 3 (by decide)

/-- C5: the allocator performs exactly one redistribution pass — every
final content is a single re-trim of the stored full content to
`initialAllocation` plus a once-computed beneficiary bonus, so slack is
never redistributed further — and for three 5-character contents with
`maxLength = 50` the initial allocation is 16, there are no
beneficiaries, and the total returned is 15. -/
theorem c5_single_redistribution_pass :
    (∀ (B : Int) (prs : List ProcessedResult),
        allocate B prs = prs.map (allocClosedForm B prs)) ∧
      initialAllocationOf 50 3 = 16 ∧
      (allocate 50
          [⟨"u1", "12345".toList, "text/plain", 200⟩,
           ⟨"u2", "abcde".toList, "text/plain", 200⟩,
           ⟨"u3", "fghij".toList, "text/plain", 200⟩]).filter
          (fun r => r.WasTruncated) = [] ∧
      ((fetchMultipleModel 5000 extFail ["u1", "u2", "u3"]
          [okPlain "u1" "12345".toList, okPlain "u2" "abcde".toList,
           okPlain "u3" "fghij".toList] 50 true).Responses.map fun p =>
            p.2.Content.length) = [5, 5, 5] ∧
      totalContentLength
          (fetchMultipleModel 5000 extFail ["u1", "u2", "u3"]
            [okPlain "u1" "12345".toList, okPlain "u2" "abcde".toList,
             okPlain "u3" "fghij".toList] 50 true).Responses = 15 :=
  ⟨allocate_closed_form, by decide, by decide, by decide, by decide⟩

/-- C6: the claimed concurrency bound
`min(configuredMaxWorkers, len(urls))` is not enforced: the dispatch
loop launches one unguarded goroutine per URL (`maxWorkers` is stored
and logged but never consulted), so with 3 URLs and `maxWorkers = 2`
three fetch workers are in flight, exceeding `min 2 3 = 2`. -/
theorem c6_worker_bound_not_enforced :
    spawnedFetchWorkers ["u1", "u2", "u3"] = 3 ∧
      ¬spawnedFetchWorkers ["u1", "u2", "u3"] ≤
          min 2 (["u1", "u2", "u3"] : List String).length := by
  decide

/-- C7: a single fetch fails exactly on the three transport-level
failure classes (request construction, request execution, body read);
a response with any HTTP status — including non-2xx — is a success
that keeps the status code and body; and a batch whose fetches all
succeeded has an empty errors map. -/
theorem c7_error_classification (u f ct : String) (st : Int) (b : List Char)
    (ch : List String) (o : NetOutcome) (dflt mx : Int)
    (ext : List Char → Option ExtractedArticle) (raw : Bool) (urls : List String)
    (results : List (Option FetchOut))
    (hok : ∀ r ∈ results, ∃ fo : FetchOut, r = some fo ∧ fo.err = none) :
    ((fetchModel u o).err = none ↔ o.isOk = true) ∧
      (fetchModel u (.ok f st b ct ch)).err = none ∧
      (fetchModel u (.ok f st b ct ch)).status = st ∧
      (fetchModel u (.ok f st b ct ch)).body = b ∧
      (fetchMultipleModel dflt ext urls results mx raw).Errors = [] := by
  refine ⟨?_, rfl, rfl, rfl,
    fetchMultiple_no_errors dflt ext urls results mx raw hok⟩
  cases o <;> simp [fetchModel, NetOutcome.isOk]

/-- C7 witness: a refused connection is a failure, a 500 response is a
success carrying status and body, and an all-successful batch has no
errors. -/
theorem c7_error_classification_witness :
    ((fetchModel "u" (.doError "refused")).err = none ↔
        (NetOutcome.doError "refused").isOk = true) ∧
      (fetchModel "u" (.ok "u" 500 ['x'] "text/plain" [])).err = none ∧
      (fetchModel "u" (.ok "u" 500 ['x'] "text/plain" [])).status = 500 ∧
      (fetchModel "u" (.ok "u" 500 ['x'] "text/plain" [])).body = ['x'] ∧
      (fetchMultipleModel 5000 extFail ["u"] [okPlain "u" "hi".toList]
          100 true).Errors = [] :=
  c7_error_classification "u" "u" "text/plain" 500 ['x'] [] (.doError "refused")
    5000 100 extFail true ["u"] [okPlain "u" "hi".toList]
    (by
      intro r hr
      rw [List.mem_singleton] at hr
      exact ⟨fetchModel "u" (.ok "u" 200 "hi".toList "text/plain" []),
        by rw [hr]; rfl, rfl⟩)

/-- C8 counterexample: after a redirect from `http://a/` to
`http://b/`, `Fetch` returns `URL = "http://a/"` — the requested URL,
not the final one — refuting the claim that the returned
`FetchResponse` records the final request URL. -/
theorem c8_counterexample :
    FetchM "http://a/" 0 0 true extFail
        (.ok "http://b/" 200 ['x'] "text/plain" ["http://a/", "http://b/"]) =
      .ok { URL := "http://a/", ContentType := "text/plain", Content := ['x'],
            StatusCode := 200, OriginalURL := "http://a/" } ∧
      ("http://a/" : String) ≠ "http://b/" := by
  decide

/-- C8 (amended): on a successful `Fetch`, the *internal* fetch result
records the final request URL, the public response's `URL` field is the
originally requested URL, and `originalURL` is set (to the requested
URL) only if at least one redirect occurred, being otherwise empty. -/
theorem c8_url_fields (u f ct : String) (st mx si : Int) (b : List Char)
    (ch : List String) (raw : Bool) (ext : List Char → Option ExtractedArticle)
    (resp : FetchResp)
    (h : FetchM u mx si raw ext (.ok f st b ct ch) = .ok resp) :
    resp.URL = u ∧ (fetchModel u (.ok f st b ct ch)).url = f ∧
      (ch = [] → resp.OriginalURL = "") ∧
      (resp.OriginalURL ≠ "" → ch ≠ [] ∧ resp.OriginalURL = u) := by
  have hF : FetchM u mx si raw ext (.ok f st b ct ch) =
      match trimContent (processContent ext raw ct b) si mx with
      | none => .panic
      | some t =>
          .ok { URL := u, ContentType := ct, Content := t, StatusCode := st,
                OriginalURL := if ch ≠ [] ∧ ch.head? ≠ some f then u else "" } := rfl
  rw [hF] at h
  cases htr : trimContent (processContent ext raw ct b) si mx with
  | none =>
      rw [htr] at h
      exact absurd h (by simp)
  | some t =>
      rw [htr] at h
      injection h with h2
      subst h2
      refine ⟨rfl, rfl, fun hch => ?_, fun hne => ?_⟩
      · simp only [FetchResp.mk.injEq]
        rw [if_neg (by simp [hch])]
      · by_cases hcond : ch ≠ [] ∧ ch.head? ≠ some f
        · simp only at hne ⊢
          rw [if_pos hcond]
          exact ⟨hcond.1, rfl⟩
        · simp only at hne
          rw [if_neg hcond] at hne
          exact absurd rfl hne

/-- C8 witness: the amended URL-field facts evaluated on the concrete
redirected fetch. -/
theorem c8_url_fields_witness :
    ({ URL := "http://a/", ContentType := "text/plain", Content := ['x'],
       StatusCode := 200, OriginalURL := "http://a/" } : FetchResp).URL = "http://a/" ∧
      (fetchModel "http://a/"
          (.ok "http://b/" 200 ['x'] "text/plain"
            ["http://a/", "http://b/"])).url = "http://b/" ∧
      ((["http://a/", "http://b/"] : List String) = [] →
        ({ URL := "http://a/", ContentType := "text/plain", Content := ['x'],
           StatusCode := 200, OriginalURL := "http://a/" } : FetchResp).OriginalURL = "") ∧
      (({ URL := "http://a/", ContentType := "text/plain", Content := ['x'],
          StatusCode := 200, OriginalURL := "http://a/" } : FetchResp).OriginalURL ≠ "" →
        (["http://a/", "http://b/"] : List String) ≠ [] ∧
          ({ URL := "http://a/", ContentType := "text/plain", Content := ['x'],
             StatusCode := 200, OriginalURL := "http://a/" } : FetchResp).OriginalURL =
            "http://a/") :=
  c8_url_fields "http://a/" "http://b/" "text/plain" 200 0 0 ['x']
    ["http://a/", "http://b/"] true extFail _ (by decide)

/-- C9 counterexample: when readability extraction fails the code
returns the raw body unchanged, whereas the claimed fallback chain
would convert the original raw HTML body to Markdown (here a converter
returning `"X"`), so the claim as stated fails. -/
theorem c9_counterexample :
    processHTMLContent extFail "raw".toList = "raw".toList ∧
      specExtractChain (fun _ => none) (fun _ => some ['X']) "raw".toList = ['X'] ∧
      "raw".toList ≠ ['X'] := by
  decide

/-- C9 (amended): when readability extraction fails the pipeline
returns the original raw body directly — there is no intermediate
raw-HTML-to-Markdown conversion, and the Markdown conversion of the
extracted fragment is total — and extraction can never turn a network
success into an error return of `Fetch`. -/
theorem c9_extraction_fallback (ext : List Char → Option ExtractedArticle)
    (body : List Char) (hfail : ext body = none) (u f ct : String) (st : Int)
    (b : List Char) (ch : List String) (mx si : Int) (m : String) :
    processHTMLContent ext body = body ∧
      FetchM u mx si false ext (.ok f st b ct ch) ≠ .err m := by
  constructor
  · unfold processHTMLContent
    rw [hfail]
  · have hF : FetchM u mx si false ext (.ok f st b ct ch) =
        match trimContent (processContent ext false ct b) si mx with
        | none => .panic
        | some t =>
            .ok { URL := u, ContentType := ct, Content := t, StatusCode := st,
                  OriginalURL := if ch ≠ [] ∧ ch.head? ≠ some f then u else "" } := rfl
    rw [hF]
    cases htr : trimContent (processContent ext false ct b) si mx <;> simp

/-- C9 witness: the fallback facts evaluated at a failing extractor and
a concrete HTML fetch. -/
theorem c9_extraction_fallback_witness :
    processHTMLContent extFail "x".toList = "x".toList ∧
      FetchM "u" 10 0 false extFail (.ok "u" 200 "x".toList "text/html" []) ≠
        .err "boom" :=
  c9_extraction_fallback extFail "x".toList rfl "u" "u" "text/html" 200
    "x".toList [] 10 0 "boom"

/-- C10 counterexample: `trimContent` is not panic-free on every input:
at `startIndex = 2`, `maxLength = 2^63 - 1` the int64 addition wraps,
the computed `endIndex` is negative, and the Go slice panics. -/
theorem c10_counterexample : trimContent "xyz".toList 2 (2 ^ 63 - 1) = none := by
  decide

/-- C10 (amended): whenever the clamped start plus `maxLength` does not
overflow int64, `trimContent` never panics, its result is a contiguous
substring of the content, and a positive `maxLength` bounds the
result's length. -/
theorem c10_slice_safety (c : List Char) (s m : Int)
    (hno : 0 < m → (if s < 0 then 0 else s) + m < 2 ^ 63) :
    ∃ t, trimContent c s m = some t ∧ (∃ pre post, c = pre ++ t ++ post) ∧
      (0 < m → (t.length : Int) ≤ m) :=
  ⟨specSelect c s m, trimContent_eq_specSelect c s m hno, specSelect_infix c s m,
    fun hm => specSelect_length_le c s m hm⟩

/-- C10 witness: slice safety evaluated at a negative start index and
an in-range window. -/
theorem c10_slice_safety_witness :
    ∃ t, trimContent "abc".toList (-7) 2 = some t ∧
      (∃ pre post, "abc".toList = pre ++ t ++ post) ∧
      (0 < (2 : Int) → (t.length : Int) ≤ 2) :=
  c10_slice_safety "abc".toList (-7) 2 (by decide)

end McpFetch
